import Mathlib

/-!
Shallow embedding of the gradient-boosted-trees molecule pipeline
(`src/gbt.ipynb`) and verification of its specification claims.

Floats are modelled as rationals (`ℚ`); a torch tensor of label values is
modelled flattened, with `none` standing for a NaN entry.  External library
calls (rdkit fingerprinting, the numpy seeded generator, the sklearn metric
and class-weight helpers, catboost prediction) are modelled either as
function parameters constrained by the contracts the design fixes for them,
or — where the spec states their exact formula — as definitions written
from that formula.
-/

namespace GBT

/-- A torch label tensor, flattened; `none` models a NaN entry. -/
abbrev Tensor := List (Option ℚ)

/-- A `pyg.data.Data` molecule record as the pipeline uses it:
a smiles string and a label tensor `y`. -/
structure Sample where
  smiles : String
  y : Tensor
  deriving Repr, DecidableEq, Inhabited

/-- Elementwise tensor comparison `t > c`: torch comparison of a NaN entry
with a number yields `False`. -/
def tensorGt (t : Tensor) (c : ℚ) : List Bool :=
  t.map (fun v => match v with
    | some x => decide (c < x)
    | none => false)

/-- `.float()` on a boolean tensor: `True ↦ 1.0`, `False ↦ 0.0`. -/
def boolsToFloat (bs : List Bool) : Tensor :=
  bs.map (fun b => some (if b then (1 : ℚ) else 0))

/-- `t.squeeze()[i]`: the scalar tensor holding entry `i` of the flattened
tensor (`none` when the entry is NaN). -/
def tensorIndex (t : Tensor) (i : ℕ) : Tensor :=
  [t.getD i none]

/-- `transform_lipo`: `sample.y = (sample.y > 3.5).float().squeeze()`
applied to a shallow copy of the sample (squeeze is the identity on the
flattened tensor). -/
def transform_lipo (s : Sample) : Sample :=
  { s with y := boolsToFloat (tensorGt s.y (7/2)) }

/-- `transform_hiv`: `sample.y = sample.y.squeeze()` on a shallow copy. -/
def transform_hiv (s : Sample) : Sample :=
  { s with y := s.y }

/-- `transform_bppp`: `sample.y = sample.y.squeeze()` on a shallow copy. -/
def transform_bppp (s : Sample) : Sample :=
  { s with y := s.y }

/-- `transform_tox21`: `sample.y = sample.y.squeeze()[2]` on a shallow copy. -/
def transform_tox21 (s : Sample) : Sample :=
  { s with y := tensorIndex s.y 2 }

/-- `transform_clintox`: `sample.y = sample.y.squeeze()[0]` on a shallow copy. -/
def transform_clintox (s : Sample) : Sample :=
  { s with y := tensorIndex s.y 0 }

/-- `is_y_not_na`: `not torch.isnan(sample.y)` on the (scalar) transformed
label. -/
def is_y_not_na (s : Sample) : Bool :=
  match s.y with
  | [some _] => true
  | _ => false

/-- `.numpy().ravel().item()` on a scalar label tensor. -/
def yitem (t : Tensor) : ℚ :=
  match t with
  | [some v] => v
  | _ => 0

/-- `smiles2fingerprint`: the external rdkit part
(`MolFromSmiles` / `GenMACCSKeys` / `ToBitString`) is the parameter
`gen : String → String`; the code then maps each byte `c` of the bit
string to `c - ord('0')` in unsigned 8-bit arithmetic
(`np.frombuffer(bytes(..., 'utf-8'), 'u1') - ord('0')`). -/
def smiles2fingerprint (gen : String → String) (smiles : String) : List ℕ :=
  (gen smiles).data.map (fun c => (c.toNat + 256 - 48) % 256)

/-- One row of the dataframe built by `prepare_dataset`: the smiles index,
the fingerprint features `x` and the scalar label `y`. -/
structure Row where
  smiles : String
  x : List ℕ
  y : ℚ
  deriving Repr, DecidableEq, Inhabited

/-- The dataframe of `prepare_dataset` before splitting:
one row per input sample, indexed by its smiles string
(`pd.DataFrame({...}).set_index("smiles")`). -/
def make_df (gen : String → String) (data : List Sample) : List Row :=
  data.map (fun mol => ⟨mol.smiles, smiles2fingerprint gen mol.smiles, yitem mol.y⟩)

/-- `np.random.default_rng(seed=0).uniform(0, 1, size=n)`: the external
numpy generator is the parameter `rng`, mapping a seed and a draw index to
the draw; the code uses the fixed seed `0`. -/
def train_split (rng : ℕ → ℕ → ℚ) (n : ℕ) : List ℚ :=
  (List.range n).map (rng 0)

/-- The train mask `train_split < 0.8`, per draw value. -/
def in_train (u : ℚ) : Bool :=
  decide (u < 4/5)

/-- The validation mask `(train_split < 0.9) & (train_split >= 0.8)`,
per draw value. -/
def in_valid (u : ℚ) : Bool :=
  decide (u < 9/10) && decide (4/5 ≤ u)

/-- The test mask `train_split > 0.9`, per draw value. -/
def in_tests (u : ℚ) : Bool :=
  decide (9/10 < u)

/-- `df.iloc[mask]` for a boolean mask: keep the rows at the positions
where the mask is true, in order. -/
def ilocMask (df : List Row) (mask : List Bool) : List Row :=
  (df.zip mask).filterMap (fun p => if p.2 then some p.1 else none)

/-- `prepare_dataset`.  The `ambient` argument stands for the interpreter
state the call starts from (e.g. how much any other generator was used
before); the code seeds a fresh `default_rng(seed=0)` inside the call and
never reads that state. -/
def prepare_dataset (gen : String → String) (rng : ℕ → ℕ → ℚ)
    (ambient : ℕ) (data : List Sample) : List Row × List Row × List Row :=
  let _ := ambient
  let us := train_split rng data.length
  let df := make_df gen data
  (ilocMask df (us.map in_train),
   ilocMask df (us.map in_valid),
   ilocMask df (us.map in_tests))

/-- `np.unique`: the sorted list of distinct values. -/
def np_unique (l : List ℚ) : List ℚ :=
  List.insertionSort (· ≤ ·) l.dedup

/-- Modelled from the spec: the external
`sklearn.utils.class_weight.compute_class_weight(class_weight='balanced')`,
whose formula the design fixes as
`weight(c) = n_samples / (n_classes × n_samples_in_class_c)`. -/
def compute_class_weight (classes : List ℚ) (y : List ℚ) : List ℚ :=
  classes.map (fun c => (y.length : ℚ) / ((classes.length : ℚ) * (y.count c : ℚ)))

/-- A predicted boolean used as a label: `True` counts as `1.0`,
`False` as `0.0`. -/
def boolLabel (b : Bool) : ℚ :=
  if b then 1 else 0

/-- True positives of (true labels, predictions): label `1` predicted
positive. -/
def truePos (t : List ℚ) (p : List Bool) : ℕ :=
  (t.zip p).countP (fun q => decide (q.1 = 1) && q.2)

/-- False positives: label other than `1` predicted positive. -/
def falsePos (t : List ℚ) (p : List Bool) : ℕ :=
  (t.zip p).countP (fun q => decide (¬ q.1 = 1) && q.2)

/-- False negatives: label `1` predicted negative. -/
def falseNeg (t : List ℚ) (p : List Bool) : ℕ :=
  (t.zip p).countP (fun q => decide (q.1 = 1) && !q.2)

/-- Modelled from the spec: the external `sklearn.metrics.accuracy_score`,
the fraction of positions where the prediction equals the true label. -/
def accuracy_score (t : List ℚ) (p : List Bool) : ℚ :=
  ((t.zip p).countP (fun q => decide (q.1 = boolLabel q.2)) : ℚ) / (t.length : ℚ)

/-- Modelled from the spec: the external `sklearn.metrics.recall_score`,
`TP / (TP + FN)` (0 when there is no positive example). -/
def recall_score (t : List ℚ) (p : List Bool) : ℚ :=
  if truePos t p + falseNeg t p = 0 then 0
  else (truePos t p : ℚ) / ((truePos t p : ℚ) + (falseNeg t p : ℚ))

/-- Modelled from the spec: the external `sklearn.metrics.precision_score`,
`TP / (TP + FP)` (0 when nothing is predicted positive). -/
def precision_score (t : List ℚ) (p : List Bool) : ℚ :=
  if truePos t p + falsePos t p = 0 then 0
  else (truePos t p : ℚ) / ((truePos t p : ℚ) + (falsePos t p : ℚ))

/-- Modelled from the spec: the external `sklearn.metrics.f1_score`,
the harmonic mean of precision and recall (0 when their sum is 0). -/
def f1_score (t : List ℚ) (p : List Bool) : ℚ :=
  let prec := precision_score t p
  let rcl := recall_score t p
  if prec + rcl = 0 then 0 else 2 * prec * rcl / (prec + rcl)

/-- The rank-based metric functions the reporter delegates to the external
metrics library (`roc_auc_score`, `precision_recall_curve` returning
(precisions, recalls, thresholds), and `auc`). -/
structure AucLib where
  roc_auc_score : List ℚ → List ℚ → ℚ
  precision_recall_curve : List ℚ → List ℚ → List ℚ × List ℚ × List ℚ
  auc : List ℚ → List ℚ → ℚ

/-- The metrics table `compute_metrics` returns. -/
structure Metrics where
  accuracy : ℚ
  «recall» : ℚ
  precision : ℚ
  f1 : ℚ
  roc_auc : ℚ
  pr_auc : ℚ
  deriving Repr, DecidableEq

/-- The trained model as the reporter consumes it: the capability
`model.predict_proba(...)[:, 1]`, giving the positive-class probability
of one feature row. -/
structure Model where
  predict_proba1 : List ℕ → ℚ

/-- `compute_metrics(model, df, threshold)`. -/
def compute_metrics (lib : AucLib) (model : Model) (df : List Row)
    (threshold : ℚ) : Metrics :=
  let pred_probs := df.map (fun r => model.predict_proba1 r.x)
  let pred := pred_probs.map (fun p => decide (threshold < p))
  let t := df.map (fun r => r.y)
  let pr := lib.precision_recall_curve t pred_probs
  { accuracy := accuracy_score t pred
    «recall» := recall_score t pred
    precision := precision_score t pred
    f1 := f1_score t pred
    roc_auc := lib.roc_auc_score t pred_probs
    pr_auc := lib.auc pr.2.1 pr.1 }

/-- The predictions `compute_metrics` derives: positive iff the predicted
probability exceeds the threshold. -/
def predictions (model : Model) (df : List Row) (threshold : ℚ) : List Bool :=
  (df.map (fun r => model.predict_proba1 r.x)).map (fun p => decide (threshold < p))

/-- A call of `compute_metrics` with the caller's state (the model object
and the row table) threaded explicitly: every operation in the body reads
the state or allocates fresh values, so the state comes back as it went in. -/
def compute_metrics_call (lib : AucLib) (st : Model × List Row)
    (threshold : ℚ) : Metrics × (Model × List Row) :=
  (compute_metrics lib st.1 st.2 threshold, (st.1, st.2))

/-- The object-level run of a transform `f`: Python's
`sample = copy(sample); sample.y = ...; return sample` over an explicit
object store.  `copy` allocates a new object holding the same field
values; the attribute assignment updates only the new object; the result
is the new object's reference. -/
def transform_obj (f : Sample → Sample) (st : List Sample) (r : ℕ) :
    List Sample × ℕ :=
  let s := st.getD r default
  ((st ++ [s]).set st.length (f s), st.length)

/-- A concrete stand-in for the external bit-string generator: 166 zero
characters for every input. -/
def genZeros : String → String :=
  fun _ => String.mk (List.replicate 166 '0')

/-- A training label list with 90% negative and 10% positive labels. -/
def nineOne : List ℚ :=
  List.replicate 9 0 ++ [1]

lemma train_valid_excl (u : ℚ) (h1 : in_train u = true) (h2 : in_valid u = true) :
    False := by
  simp only [in_train, decide_eq_true_eq] at h1
  simp only [in_valid, Bool.and_eq_true, decide_eq_true_eq] at h2
  linarith [h2.2]

lemma train_tests_excl (u : ℚ) (h1 : in_train u = true) (h2 : in_tests u = true) :
    False := by
  simp only [in_train, decide_eq_true_eq] at h1
  simp only [in_tests, decide_eq_true_eq] at h2
  linarith

lemma valid_tests_excl (u : ℚ) (h1 : in_valid u = true) (h2 : in_tests u = true) :
    False := by
  simp only [in_valid, Bool.and_eq_true, decide_eq_true_eq] at h1
  simp only [in_tests, decide_eq_true_eq] at h2
  linarith [h1.1]

lemma ilocMask_cons_true (d : Row) (df : List Row) (mask : List Bool) :
    ilocMask (d :: df) (true :: mask) = d :: ilocMask df mask := by
  simp [ilocMask, List.filterMap_cons]

lemma ilocMask_cons_false (d : Row) (df : List Row) (mask : List Bool) :
    ilocMask (d :: df) (false :: mask) = ilocMask df mask := by
  simp [ilocMask, List.filterMap_cons]

lemma three_mask_length : ∀ (df : List Row) (us : List ℚ),
    (ilocMask df (us.map in_train)).length + (ilocMask df (us.map in_valid)).length
      + (ilocMask df (us.map in_tests)).length ≤ df.length := by
  intro df
  induction df with
  | nil => intro us; simp [ilocMask]
  | cons d df ih =>
    intro us
    cases us with
    | nil => simp [ilocMask]
    | cons u us =>
      have hrec := ih us
      simp only [List.map_cons]
      cases htr : in_train u <;> cases hva : in_valid u <;> cases hte : in_tests u <;>
        first
          | (exact (train_valid_excl u htr hva).elim)
          | (exact (train_tests_excl u htr hte).elim)
          | (exact (valid_tests_excl u hva hte).elim)
          | (simp only [ilocMask_cons_true, ilocMask_cons_false, List.length_cons]
             omega)

/-- C1: `smiles2fingerprint` keeps the external bit string's contract: for a
generator producing 166-character strings of characters `'0'`/`'1'`, the
result always has length 166, every component is exactly 0 or 1, and the
same input string yields an identical vector. -/
theorem claim_C1_fingerprint_contract (gen : String → String)
    (hlen : ∀ s, (gen s).length = 166)
    (hbits : ∀ s, ∀ c ∈ (gen s).data, c = '0' ∨ c = '1') (s : String) :
    (smiles2fingerprint gen s).length = 166 ∧
    (∀ v ∈ smiles2fingerprint gen s, v = 0 ∨ v = 1) ∧
    (∀ s', s = s' → smiles2fingerprint gen s = smiles2fingerprint gen s') := by
  refine ⟨?_, ?_, ?_⟩
  · show ((gen s).data.map _).length = 166
    rw [List.length_map]
    exact hlen s

  · intro v hv
    simp only [smiles2fingerprint, List.mem_map] at hv
    obtain ⟨c, hc, rfl⟩ := hv
    rcases hbits s c hc with rfl | rfl
    · left; rfl
    · right; rfl
  · intro s' h
    rw [h]

/-- C1 witness: the contract hypotheses hold of a concrete all-zero
generator, and the theorem evaluates on the input string "C". -/
theorem claim_C1_fingerprint_contract_witness :
    (smiles2fingerprint genZeros "C").length = 166 :=
  (claim_C1_fingerprint_contract genZeros
    (fun _ => rfl)
    (fun _ _ hc => Or.inl (List.eq_of_mem_replicate hc)) "C").1

/-- C2: a draw value `u` is assigned to train iff `u < 0.8`, to validation
iff `0.8 ≤ u < 0.9`, to test iff `u > 0.9`; no draw value is assigned to two
partitions, the value `0.9` is assigned to none, and consequently
`prepare_dataset` emits at most one output row per input row. -/
theorem claim_C2_partition_boundaries :
    (∀ u : ℚ,
      (in_train u = true ↔ u < 4/5) ∧
      (in_valid u = true ↔ 4/5 ≤ u ∧ u < 9/10) ∧
      (in_tests u = true ↔ 9/10 < u) ∧
      ¬(in_train u = true ∧ in_valid u = true) ∧
      ¬(in_train u = true ∧ in_tests u = true) ∧
      ¬(in_valid u = true ∧ in_tests u = true)) ∧
    (in_train (9/10) = false ∧ in_valid (9/10) = false ∧ in_tests (9/10) = false) ∧
    (∀ (gen : String → String) (rng : ℕ → ℕ → ℚ) (ambient : ℕ) (data : List Sample),
      (prepare_dataset gen rng ambient data).1.length
        + (prepare_dataset gen rng ambient data).2.1.length
        + (prepare_dataset gen rng ambient data).2.2.length ≤ data.length) := by
  refine ⟨?_, ?_, ?_⟩
  · intro u
    refine ⟨?_, ?_, ?_, ?_, ?_, ?_⟩
    · simp [in_train]
    · simp only [in_valid, Bool.and_eq_true, decide_eq_true_eq]
      constructor
      · intro h; exact ⟨h.2, h.1⟩
      · intro h; exact ⟨h.2, h.1⟩
    · simp [in_tests]
    · intro h; exact train_valid_excl u h.1 h.2
    · intro h; exact train_tests_excl u h.1 h.2
    · intro h; exact valid_tests_excl u h.1 h.2
  · refine ⟨?_, ?_, ?_⟩
    · exact decide_eq_false (by norm_num)
    · show (decide ((9:ℚ)/10 < 9/10) && decide ((4:ℚ)/5 ≤ 9/10)) = false
      rw [decide_eq_false (by norm_num : ¬((9:ℚ)/10 < 9/10))]
      rfl
    · exact decide_eq_false (by norm_num)
  · intro gen rng ambient data
    have h := three_mask_length (make_df gen data) (train_split rng data.length)
    have hlen : (make_df gen data).length = data.length := by
      simp [make_df]
    rw [hlen] at h
    exact h

/-- C3: `prepare_dataset` is exactly reproducible: on the same rows in the
same order, with the module-wide fixed seed, two invocations (from any two
ambient interpreter states) return identical partitions. -/
theorem claim_C3_reproducible (gen : String → String) (rng : ℕ → ℕ → ℚ)
    (a₁ a₂ : ℕ) (d₁ d₂ : List Sample) (h : d₁ = d₂) :
    prepare_dataset gen rng a₁ d₁ = prepare_dataset gen rng a₂ d₂ := by
  subst h
  rfl

/-- C3 witness: two invocations on a concrete one-sample table from two
different ambient states agree. -/
theorem claim_C3_reproducible_witness :
    prepare_dataset genZeros (fun _ _ => 0) 0 [⟨"C", [some 1]⟩]
      = prepare_dataset genZeros (fun _ _ => 0) 5 [⟨"C", [some 1]⟩] :=
  claim_C3_reproducible genZeros (fun _ _ => 0) 0 5 _ _ rfl

lemma is_y_not_na_iff (s : Sample) : is_y_not_na s = true ↔ ∃ v, s.y = [some v] := by
  rcases s with ⟨sm, y⟩
  rcases y with _ | ⟨a, t⟩
  · simp [is_y_not_na]
  · rcases a with _ | v
    · simp [is_y_not_na]
    · rcases t with _ | ⟨b, t'⟩
      · simp [is_y_not_na]
      · simp [is_y_not_na]

lemma boolsToFloat_mem {bs : List Bool} {o : Option ℚ} (h : o ∈ boolsToFloat bs) :
    o = some 0 ∨ o = some 1 := by
  simp only [boolsToFloat, List.mem_map] at h
  obtain ⟨b, _, rfl⟩ := h
  cases b
  · left; rfl
  · right; rfl

lemma getD_some_mem {l : Tensor} {i : ℕ} {v : ℚ} (h : l.getD i none = some v) :
    some v ∈ l := by
  cases hg : l[i]? with
  | none =>
    rw [List.getD_eq_getElem?_getD, hg] at h
    exact absurd h (by simp)
  | some a =>
    rw [List.getD_eq_getElem?_getD, hg] at h
    have ha : a = some v := h
    exact ha ▸ List.getElem?_mem hg

/-- C4 counterexample: the pass-through extractor (`transform_hiv`) applied
to a raw sample with label tensor value 0.5 survives the missing-label
filter (`is_y_not_na`) but carries the label 0.5, which is neither 0.0 nor
1.0; so survival of the filter alone does not make the label exactly
binary. -/
theorem claim_C4_exact_binary_cex :
    is_y_not_na (transform_hiv ⟨"C", [some (1/2)]⟩) = true ∧
    yitem (transform_hiv ⟨"C", [some (1/2)]⟩).y = 1/2 ∧
    (1/2 : ℚ) ≠ 0 ∧ (1/2 : ℚ) ≠ 1 :=
  ⟨rfl, rfl, by norm_num, by norm_num⟩

/-- C4 (amended): for the binary-threshold extractor (`transform_lipo`)
every surviving sample's label is exactly 0.0 or 1.0 unconditionally, for
every raw label tensor whatsoever; for the pass-through and indexed
extractors the surviving label is exactly 0.0 or 1.0 whenever every
non-NaN entry of the raw label tensor is exactly 0.0 or 1.0 (a property of
the benchmark data the code does not itself enforce). -/
theorem claim_C4_surviving_labels (s : Sample) :
    (is_y_not_na (transform_lipo s) = true →
      yitem (transform_lipo s).y = 0 ∨ yitem (transform_lipo s).y = 1) ∧
    ((∀ v : ℚ, some v ∈ s.y → v = 0 ∨ v = 1) →
      (is_y_not_na (transform_hiv s) = true →
        yitem (transform_hiv s).y = 0 ∨ yitem (transform_hiv s).y = 1) ∧
      (is_y_not_na (transform_bppp s) = true →
        yitem (transform_bppp s).y = 0 ∨ yitem (transform_bppp s).y = 1) ∧
      (is_y_not_na (transform_tox21 s) = true →
        yitem (transform_tox21 s).y = 0 ∨ yitem (transform_tox21 s).y = 1) ∧
      (is_y_not_na (transform_clintox s) = true →
        yitem (transform_clintox s).y = 0 ∨ yitem (transform_clintox s).y = 1)) := by
  obtain ⟨sm, ty⟩ := s
  constructor
  · intro h
    rw [is_y_not_na_iff] at h
    obtain ⟨v, hv⟩ := h
    simp only [transform_lipo] at hv ⊢
    have hm : some v ∈ boolsToFloat (tensorGt ty (7/2)) := by
      rw [hv]; exact List.mem_singleton_self _
    rw [hv]
    rcases boolsToFloat_mem hm with hb | hb
    · simp only [Option.some.injEq] at hb
      subst hb
      left; rfl
    · simp only [Option.some.injEq] at hb
      subst hb
      right; rfl
  · intro hclean
    refine ⟨?_, ?_, ?_, ?_⟩
    · intro h
      rw [is_y_not_na_iff] at h
      obtain ⟨v, hv⟩ := h
      simp only [transform_hiv] at hv ⊢
      subst hv
      exact hclean v (List.mem_singleton_self _)
    · intro h
      rw [is_y_not_na_iff] at h
      obtain ⟨v, hv⟩ := h
      simp only [transform_bppp] at hv ⊢
      subst hv
      exact hclean v (List.mem_singleton_self _)
    · intro h
      rw [is_y_not_na_iff] at h
      obtain ⟨v, hv⟩ := h
      simp only [transform_tox21, tensorIndex, List.cons.injEq, and_true] at hv ⊢
      rw [hv]
      exact hclean v (getD_some_mem hv)
    · intro h
      rw [is_y_not_na_iff] at h
      obtain ⟨v, hv⟩ := h
      simp only [transform_clintox, tensorIndex, List.cons.injEq, and_true] at hv ⊢
      rw [hv]
      exact hclean v (getD_some_mem hv)

/-- C4 witness: the unconditional lipo conjunct evaluates on a raw sample
with the continuous label 4.0 (not itself 0 or 1), and the conditional
indexed conjunct on a concrete clean raw sample. -/
theorem claim_C4_surviving_labels_witness :
    (yitem (transform_lipo ⟨"C", [some 4]⟩).y = 0 ∨
     yitem (transform_lipo ⟨"C", [some 4]⟩).y = 1) ∧
    (yitem (transform_tox21 ⟨"C", [some 1, some 0, some 1]⟩).y = 0 ∨
     yitem (transform_tox21 ⟨"C", [some 1, some 0, some 1]⟩).y = 1) :=
  ⟨(claim_C4_surviving_labels ⟨"C", [some 4]⟩).1 rfl,
   ((claim_C4_surviving_labels ⟨"C", [some 1, some 0, some 1]⟩).2
     (by
       intro v hv
       simp only [List.mem_cons, List.not_mem_nil, or_false, Option.some.injEq] at hv
       rcases hv with rfl | rfl | rfl
       · right; rfl
       · left; rfl
       · right; rfl)).2.2.1 rfl⟩

lemma dedup_const {c : ℚ} : ∀ {l : List ℚ}, l ≠ [] → (∀ v ∈ l, v = c) → l.dedup = [c] := by
  intro l
  induction l with
  | nil => intro h _; exact absurd rfl h
  | cons a t ih =>
    intro _ hall
    have ha : a = c := hall a (List.mem_cons_self a t)
    subst ha
    cases t with
    | nil => simp
    | cons b t' =>
      have hb : b = a := (hall b (by simp)).trans rfl
      have hmem : a ∈ b :: t' := by rw [hb]; exact List.mem_cons_self a t'
      rw [List.dedup_cons_of_mem hmem]
      exact ih (by simp) (fun v hv => hall v (List.mem_cons_of_mem a hv))

/-- C5 counterexample: on a training partition with the single class `0`,
the balanced class-weight computation returns the defined, usable weight
vector `[1.0]` rather than failing. -/
theorem claim_C5_single_class_cex :
    compute_class_weight (np_unique [0, 0, 0]) [0, 0, 0] = [1] := by
  have hd : ([0, 0, 0] : List ℚ).dedup = [0] :=
    dedup_const (by simp) (by intro v hv; simpa using hv)
  have hu : np_unique ([0, 0, 0] : List ℚ) = [0] := by
    show List.insertionSort (· ≤ ·) ([0, 0, 0] : List ℚ).dedup = [0]
    rw [hd]
    rfl
  rw [hu]
  simp only [compute_class_weight, List.map_cons, List.map_nil, List.length_cons,
    List.length_nil, List.count_cons, List.count_nil, beq_self_eq_true, if_true]
  norm_num

/-- C5 (amended): when the training partition holds a single class, the
class-weight computation does not fail and does not return an unusable
result: it returns the weight vector `[1.0]`
(`n_samples / (1 × n_samples)`); no InsufficientClassDiversity error is
raised at this step. -/
theorem claim_C5_single_class_weight (y : List ℚ) (c : ℚ)
    (hne : y ≠ []) (hall : ∀ v ∈ y, v = c) :
    compute_class_weight (np_unique y) y = [1] := by
  have hd : y.dedup = [c] := dedup_const hne hall
  have hu : np_unique y = [c] := by
    show List.insertionSort (· ≤ ·) y.dedup = [c]
    rw [hd]
    rfl
  rw [hu]
  have hcount : y.count c = y.length :=
    List.count_eq_length.mpr (fun b hb => (hall b hb).symm)
  have hn : (y.length : ℚ) ≠ 0 := by
    have hz : y.length ≠ 0 := by
      cases y with
      | nil => exact absurd rfl hne
      | cons a t => simp
    exact Nat.cast_ne_zero.mpr hz
  simp only [compute_class_weight, List.map_cons, List.map_nil, List.length_cons,
    List.length_nil, zero_add, Nat.cast_one, hcount, one_mul]
  rw [div_self hn]

/-- C5 witness: the amended claim evaluates on the concrete single-class
label list `[0, 0, 0]`. -/
theorem claim_C5_single_class_weight_witness :
    compute_class_weight (np_unique [0, 0, 0]) [0, 0, 0] = [1] :=
  claim_C5_single_class_weight [0, 0, 0] 0 (by simp) (by intro v hv; simpa using hv)

lemma np_unique_binary (y : List ℚ) (h01 : ∀ v ∈ y, v = 0 ∨ v = 1)
    (h0 : (0 : ℚ) ∈ y) (h1 : (1 : ℚ) ∈ y) : np_unique y = [0, 1] := by
  have hperm : List.Perm (List.insertionSort (· ≤ ·) y.dedup) y.dedup :=
    List.perm_insertionSort _ _
  have hnd : (np_unique y).Nodup := hperm.nodup_iff.mpr (List.nodup_dedup y)
  have hmem : ∀ x : ℚ, x ∈ np_unique y ↔ x = 0 ∨ x = 1 := by
    intro x
    show x ∈ List.insertionSort (· ≤ ·) y.dedup ↔ _
    rw [hperm.mem_iff, List.mem_dedup]
    constructor
    · exact h01 x
    · rintro (rfl | rfl)
      · exact h0
      · exact h1
  have hp : List.Perm (np_unique y) [0, 1] := by
    apply List.perm_of_nodup_nodup_toFinset_eq hnd (by norm_num)
    ext a
    simp only [List.mem_toFinset, hmem, List.mem_cons, List.not_mem_nil, or_false]
  exact List.eq_of_perm_of_sorted hp (List.sorted_insertionSort _ _)
    (by norm_num [List.sorted_cons])

/-- C6: on a training partition with both classes present (labels exactly
0.0 and 1.0), the balanced class weights are
`n_samples / (2 × n_samples_in_class_c)` for each class `c`; in particular
for a 90% negative / 10% positive training set the weights are
`[5/9, 5]`, the positive weight being exactly 9 times the negative one. -/
theorem claim_C6_balanced_weights (y : List ℚ)
    (h01 : ∀ v ∈ y, v = 0 ∨ v = 1) (h0 : (0 : ℚ) ∈ y) (h1 : (1 : ℚ) ∈ y) :
    compute_class_weight (np_unique y) y
      = [(y.length : ℚ) / (2 * (y.count 0 : ℚ)),
         (y.length : ℚ) / (2 * (y.count 1 : ℚ))] ∧
    compute_class_weight (np_unique nineOne) nineOne = [5/9, 5] ∧
    (5 : ℚ) = 9 * (5/9) := by
  refine ⟨?_, ?_, by norm_num⟩
  · rw [np_unique_binary y h01 h0 h1]
    simp [compute_class_weight]
  · have hu : np_unique nineOne = [0, 1] := by
      apply np_unique_binary
      · intro v hv
        simp only [nineOne, List.mem_append, List.mem_replicate, List.mem_cons,
          List.not_mem_nil, or_false] at hv
        rcases hv with ⟨_, rfl⟩ | rfl
        · left; rfl
        · right; rfl
      · simp [nineOne, List.mem_replicate]
      · simp [nineOne]
    rw [hu]
    simp only [compute_class_weight, List.map_cons, List.map_nil, List.length_cons,
      List.length_nil, nineOne, List.count_append, List.count_replicate,
      List.count_cons, List.count_nil, List.length_append, List.length_replicate]
    norm_num

/-- C6 witness: the general conjunct evaluates on the concrete 90/10 label
list. -/
theorem claim_C6_balanced_weights_witness :
    compute_class_weight (np_unique nineOne) nineOne = [5/9, 5] :=
  (claim_C6_balanced_weights nineOne
    (by
      intro v hv
      simp only [nineOne, List.mem_append, List.mem_replicate, List.mem_cons,
        List.not_mem_nil, or_false] at hv
      rcases hv with ⟨_, rfl⟩ | rfl
      · left; rfl
      · right; rfl)
    (by simp [nineOne, List.mem_replicate])
    (by simp [nineOne])).2.1

/-- The toy 10-row table of the end-to-end scenario: true labels
`[1,0,1,0,1,0,1,0,1,0]`, and feature vectors from which the toy model
reads off the probabilities `[0.9,0.1,0.8,0.2,0.7,0.3,0.6,0.4,0.55,0.45]`. -/
def toyRows : List Row :=
  [⟨"m0", [90], 1⟩, ⟨"m1", [10], 0⟩, ⟨"m2", [80], 1⟩, ⟨"m3", [20], 0⟩,
   ⟨"m4", [70], 1⟩, ⟨"m5", [30], 0⟩, ⟨"m6", [60], 1⟩, ⟨"m7", [40], 0⟩,
   ⟨"m8", [55], 1⟩, ⟨"m9", [45], 0⟩]

/-- The toy model: reads the probability out of the first feature
component (in hundredths). -/
def toyModel : Model :=
  ⟨fun x => ((x.headD 0 : ℕ) : ℚ) / 100⟩

/-- C7: the reporter classifies a row as positive iff its predicted
probability strictly exceeds the threshold, and on the 10-row toy table
with labels `[1,0,1,0,1,0,1,0,1,0]` and probabilities
`[0.9,0.1,0.8,0.2,0.7,0.3,0.6,0.4,0.55,0.45]` at threshold 0.5 it reports
accuracy, recall, precision and f1 all exactly 1. -/
theorem claim_C7_threshold_metrics :
    (∀ (model : Model) (df : List Row) (threshold : ℚ) (i : ℕ),
      (predictions model df threshold)[i]? = some true
        ↔ ∃ r, df[i]? = some r ∧ threshold < model.predict_proba1 r.x) ∧
    (∀ lib : AucLib,
      (compute_metrics lib toyModel toyRows (1/2)).accuracy = 1 ∧
      (compute_metrics lib toyModel toyRows (1/2)).«recall» = 1 ∧
      (compute_metrics lib toyModel toyRows (1/2)).precision = 1 ∧
      (compute_metrics lib toyModel toyRows (1/2)).f1 = 1) := by
  constructor
  · intro model df threshold i
    simp only [predictions, List.getElem?_map]
    cases hg : df[i]? with
    | none => simp
    | some r => simp
  · intro lib
    refine ⟨?_, ?_, ?_, ?_⟩ <;>
      · simp only [compute_metrics, toyRows, toyModel, List.map_cons, List.map_nil]
        norm_num [accuracy_score, recall_score, precision_score, f1_score,
          truePos, falsePos, falseNeg, boolLabel, List.zip_cons_cons,
          List.zip_nil_right, List.countP_cons, List.countP_nil]

/-- C8: the metrics reporter mutates neither the row table nor the model:
running the call with the caller's state threaded explicitly returns that
state unchanged. -/
theorem claim_C8_no_mutation (lib : AucLib) (st : Model × List Row) (threshold : ℚ) :
    (compute_metrics_call lib st threshold).2 = st :=
  rfl

/-- C9 counterexample: two input samples sharing the smiles string "C"
produce a table whose first two rows have the same structure key but
different labels — the structure column is not a unique key. -/
theorem claim_C9_unique_key_cex :
    (make_df genZeros [⟨"C", [some 0]⟩, ⟨"C", [some 1]⟩]).map Row.smiles = ["C", "C"] ∧
    (make_df genZeros [⟨"C", [some 0]⟩, ⟨"C", [some 1]⟩]).map Row.y = [0, 1] ∧
    (0 : ℚ) ≠ 1 :=
  ⟨rfl, rfl, by norm_num⟩

/-- C9 (amended): `set_index` does not enforce uniqueness of the structure
key: the built table has exactly one row per input sample, the i-th row's
structure string being the i-th sample's smiles string, so duplicate input
structure strings yield duplicate keys rather than being rejected or
merged. -/
theorem claim_C9_structure_column (gen : String → String) (data : List Sample) :
    (make_df gen data).map Row.smiles = data.map Sample.smiles ∧
    (make_df gen data).length = data.length := by
  constructor
  · simp only [make_df, List.map_map]
    rfl
  · simp [make_df]

lemma transform_obj_frame (f : Sample → Sample) (st : List Sample) (r : ℕ)
    (h : r < st.length) :
    (transform_obj f st r).1[r]? = st[r]? ∧
    (transform_obj f st r).2 ≠ r ∧
    (transform_obj f st r).1[(transform_obj f st r).2]? = some (f (st.getD r default)) := by
  refine ⟨?_, ?_, ?_⟩
  · show ((st ++ [st.getD r default]).set st.length (f (st.getD r default)))[r]? = st[r]?
    rw [List.getElem?_set_ne (ne_of_gt h)]
    exact List.getElem?_append_left h
  · exact ne_of_gt h
  · show ((st ++ [st.getD r default]).set st.length (f (st.getD r default)))[st.length]? = _
    exact List.getElem?_set_self (by simp)

/-- C10: each of the five label extractors works on a shallow copy of its
input: run over an explicit object store, the original sample object (its
label tensor and structure string included) is unchanged, the returned
reference is distinct from the input's, and it holds the new record with
the extracted label. -/
theorem claim_C10_transforms_pure (st : List Sample) (r : ℕ) (h : r < st.length) :
    ∀ f ∈ [transform_lipo, transform_hiv, transform_bppp, transform_tox21, transform_clintox],
      (transform_obj f st r).1[r]? = st[r]? ∧
      (transform_obj f st r).2 ≠ r ∧
      (transform_obj f st r).1[(transform_obj f st r).2]? = some (f (st.getD r default)) :=
  fun f _ => transform_obj_frame f st r h

/-- C10 witness: on a concrete one-object store, after running the indexed
extractor the original object is still intact at its reference. -/
theorem claim_C10_transforms_pure_witness :
    (transform_obj transform_tox21 [⟨"C", [some 1, some 0, some 1]⟩] 0).1[0]? =
      some ⟨"C", [some 1, some 0, some 1]⟩ :=
  ((claim_C10_transforms_pure [⟨"C", [some 1, some 0, some 1]⟩] 0 (by simp)
    transform_tox21 (by simp)).1).trans rfl

end GBT
